import Mathlib

/-!
Shallow embedding of the virtual whiteboard drawing surface: its stroke
model (`DrawingPath`), its surface state (`SurfaceState`), the pointer
event handlers (`startDrawing`, `draw`, `stopDrawing`), the history
operations (`undo`, `redo`, `clearCanvas`) and the renderer (`drawPath`,
`redrawCanvas`).  React `useState` updates are modelled as one atomic
state transition per handler invocation; the nondeterministic clock value
used for `id`/`timestamp` is passed in as an explicit `now` argument.
Coordinates are embedded as integers (every operation the claims exercise
is exact integer arithmetic; the one square root the code computes is kept
symbolically as the squared radius and related to `Real.sqrt` in the
geometry theorem).
-/

namespace Whiteboard

/-- A surface-local coordinate pair, from the `getMousePos` result shape. -/
structure Point where
  x : Int
  y : Int
  deriving DecidableEq, Repr

/-- The closed tool set, from `type Tool`. -/
inductive Tool where
  | pen
  | eraser
  | rectangle
  | circle
  | text
  | move
  deriving DecidableEq, Repr

/-- One stroke/shape record, from `interface DrawingPath`. -/
structure DrawingPath where
  id : String
  tool : Tool
  points : List Point
  color : String
  strokeWidth : Nat
  timestamp : Nat
  deriving DecidableEq, Repr

/-- The aggregate component state: the `useState` hooks of
`VirtualWhiteboard` that the drawing logic reads and writes. -/
structure SurfaceState where
  isDrawing : Bool
  currentTool : Tool
  strokeColor : String
  strokeWidth : Nat
  paths : List DrawingPath
  undoStack : List (List DrawingPath)
  redoStack : List (List DrawingPath)
  currentPath : Option DrawingPath
  deriving DecidableEq, Repr

/-- Initial state of the widget on mount: the `useState` initialisers. -/
def initState : SurfaceState :=
  { isDrawing := false
    currentTool := Tool.pen
    strokeColor := "#000000"
    strokeWidth := 2
    paths := []
    undoStack := []
    redoStack := []
    currentPath := none }

/-- Handler `startDrawing`: guarded by `isReadOnly`; sets `isDrawing` and replaces
`currentPath` with a fresh one-point path; `now` models `Date.now()`. -/
def startDrawing (ro : Bool) (pos : Point) (now : Nat) (s : SurfaceState) :
    SurfaceState :=
  if ro then s
  else
    { s with
      isDrawing := true
      currentPath := some
        { id := toString now
          tool := s.currentTool
          points := [pos]
          color := s.strokeColor
          strokeWidth := s.strokeWidth
          timestamp := now } }

/-- Handler `draw`: appends the position to the in-progress path when a gesture is
active and the surface is not read-only; otherwise a no-op. -/
def draw (ro : Bool) (pos : Point) (s : SurfaceState) : SurfaceState :=
  match s.isDrawing, s.currentPath, ro with
  | true, some cp, false =>
      { s with currentPath := some { cp with points := cp.points ++ [pos] } }
  | _, _, _ => s

/-- Handler `stopDrawing`: when a gesture is active, pushes the current `paths`
snapshot onto `undoStack`, empties `redoStack`, appends the in-progress
path to `paths` and clears it; otherwise a no-op. -/
def stopDrawing (s : SurfaceState) : SurfaceState :=
  match s.isDrawing, s.currentPath with
  | true, some cp =>
      { s with
        isDrawing := false
        undoStack := s.undoStack ++ [s.paths]
        redoStack := []
        paths := s.paths ++ [cp]
        currentPath := none }
  | _, _ => s

/-- Operation `undo`: no-op on an empty `undoStack`; otherwise pushes the current
`paths` onto the front of `redoStack`, restores the last snapshot of
`undoStack` (`undoStack[undoStack.length - 1]`) and drops it. -/
def undo (s : SurfaceState) : SurfaceState :=
  match s.undoStack.getLast? with
  | none => s
  | some prev =>
      { s with
        redoStack := s.paths :: s.redoStack
        paths := prev
        undoStack := s.undoStack.dropLast }

/-- Operation `redo`: no-op on an empty `redoStack`; otherwise pushes the current
`paths` onto the end of `undoStack`, restores the front snapshot of
`redoStack` (`redoStack[0]`) and drops it. -/
def redo (s : SurfaceState) : SurfaceState :=
  match s.redoStack with
  | [] => s
  | next :: rest =>
      { s with
        undoStack := s.undoStack ++ [s.paths]
        paths := next
        redoStack := rest }

/-- Operation `clearCanvas`: unconditionally snapshots `paths` onto `undoStack`,
empties `redoStack` and empties `paths`. -/
def clearCanvas (s : SurfaceState) : SurfaceState :=
  { s with
    undoStack := s.undoStack ++ [s.paths]
    redoStack := []
    paths := [] }

/-- Setter `setCurrentTool` from the toolbar. -/
def setCurrentTool (t : Tool) (s : SurfaceState) : SurfaceState :=
  { s with currentTool := t }

/-- Setter `setStrokeColor` from the palette. -/
def setStrokeColor (c : String) (s : SurfaceState) : SurfaceState :=
  { s with strokeColor := c }

/-- Setter `setStrokeWidth` from the width selector. -/
def setStrokeWidth (w : Nat) (s : SurfaceState) : SurfaceState :=
  { s with strokeWidth := w }

/-- The `onMouseUp` handler of the canvas element. -/
def onMouseUp : SurfaceState → SurfaceState := stopDrawing

/-- The `onMouseLeave` handler of the canvas element: the source wires the
same `stopDrawing` function to it. -/
def onMouseLeave : SurfaceState → SurfaceState := stopDrawing

/-- The two compositing modes `drawPath` selects between. -/
inductive CompositeOp where
  | sourceOver
  | destinationOut
  deriving DecidableEq, Repr

/-- A painted primitive: one observable drawing command issued to the 2D
context.  A circle is recorded by its squared radius (the code computes
`Math.sqrt` of exactly this quantity). -/
inductive Primitive where
  | clearAll (w h : Int)
  | fillRect (x y w h : Int) (color : String)
  | strokeRect (x y w h : Int) (color : String) (width : Nat)
      (op : CompositeOp)
  | strokePolyline (pts : List Point) (color : String) (width : Nat)
      (op : CompositeOp)
  | strokeCircle (cx cy : Int) (radiusSq : Int) (color : String)
      (width : Nat) (op : CompositeOp)
  deriving DecidableEq, Repr

/-- The compositing mode chosen at the top of `drawPath`. -/
def pathOp (t : Tool) : CompositeOp :=
  if t = Tool.eraser then CompositeOp.destinationOut else CompositeOp.sourceOver

/-- Renderer routine `drawPath`: the sequence of paint commands one path produces.  Fewer
than two points paints nothing.  Otherwise the context's current path is
the polyline through all points; for `rectangle` the code then calls
`strokeRect` (painting the rectangle) but — its `clearRect(0,0,0,0)` being
a no-op that does not reset the current path — the final `ctx.stroke()`
still strokes that polyline; for `circle` a genuine `beginPath()` replaces
the current path with the arc, so only the circle is stroked; every other
tool strokes the polyline under its compositing mode. -/
def drawPath (p : DrawingPath) : List Primitive :=
  match p.points with
  | q0 :: q1 :: rest =>
      let qn := (q1 :: rest).getLast (List.cons_ne_nil q1 rest)
      match p.tool with
      | Tool.rectangle =>
          [Primitive.strokeRect q0.x q0.y (qn.x - q0.x) (qn.y - q0.y)
            p.color p.strokeWidth (pathOp Tool.rectangle),
           Primitive.strokePolyline p.points p.color p.strokeWidth
            (pathOp Tool.rectangle)]
      | Tool.circle =>
          [Primitive.strokeCircle q0.x q0.y
            ((qn.x - q0.x) ^ 2 + (qn.y - q0.y) ^ 2)
            p.color p.strokeWidth (pathOp Tool.circle)]
      | t =>
          [Primitive.strokePolyline p.points p.color p.strokeWidth (pathOp t)]
  | _ => []

/-- Renderer `redrawCanvas`: clear, white background, every committed path in
order, then the in-progress path when a gesture is active. -/
def redrawCanvas (w h : Int) (s : SurfaceState) : List Primitive :=
  Primitive.clearAll w h ::
    Primitive.fillRect 0 0 w h "#ffffff" ::
      ((s.paths.map drawPath).flatten ++
        match s.isDrawing, s.currentPath with
        | true, some cp => drawPath cp
        | _, _ => [])

/-! Concrete fixtures used by counterexamples and witnesses. -/

/-- A concrete committed pen stroke. -/
def pA : DrawingPath :=
  { id := "1", tool := Tool.pen, points := [⟨0, 0⟩, ⟨1, 1⟩],
    color := "#000000", strokeWidth := 2, timestamp := 1 }

/-- A second concrete committed stroke. -/
def pB : DrawingPath :=
  { id := "2", tool := Tool.eraser, points := [⟨5, 5⟩, ⟨5, 15⟩],
    color := "#FF0000", strokeWidth := 4, timestamp := 2 }

/-- A third concrete committed stroke. -/
def pC : DrawingPath :=
  { id := "3", tool := Tool.pen, points := [⟨7, 7⟩],
    color := "#000000", strokeWidth := 2, timestamp := 3 }

/-- A state whose `paths` holds exactly three committed strokes. -/
def s3c : SurfaceState :=
  { initState with paths := [pA, pB, pC] }

/-- A state with an active gesture and a nonempty `redoStack`. -/
def sActive : SurfaceState :=
  { initState with
    isDrawing := true
    currentPath := some pA
    redoStack := [[pB]] }

/-- C3: after a commit (`stopDrawing` with an active gesture) and after
`clearCanvas`, `redoStack` is empty regardless of its prior contents; the
remaining operations (`startDrawing`, `draw`, the tool/color/width
setters, and `stopDrawing` when no gesture is active) leave both history
stacks untouched, so commit, undo, redo and clear are the only stack
mutators. -/
theorem C3_redo_invalidation :
    (∀ s cp, s.isDrawing = true → s.currentPath = some cp →
      (stopDrawing s).redoStack = []) ∧
    (∀ s, (clearCanvas s).redoStack = []) ∧
    (∀ s ro pos now, (startDrawing ro pos now s).undoStack = s.undoStack ∧
      (startDrawing ro pos now s).redoStack = s.redoStack) ∧
    (∀ s ro pos, (draw ro pos s).undoStack = s.undoStack ∧
      (draw ro pos s).redoStack = s.redoStack) ∧
    (∀ s t, (setCurrentTool t s).undoStack = s.undoStack ∧
      (setCurrentTool t s).redoStack = s.redoStack) ∧
    (∀ s c, (setStrokeColor c s).undoStack = s.undoStack ∧
      (setStrokeColor c s).redoStack = s.redoStack) ∧
    (∀ s w, (setStrokeWidth w s).undoStack = s.undoStack ∧
      (setStrokeWidth w s).redoStack = s.redoStack) ∧
    (∀ s, s.isDrawing = false → stopDrawing s = s) := by
  refine ⟨?_, ?_, ?_, ?_, ?_, ?_, ?_, ?_⟩
  · intro s cp h1 h2
    simp [stopDrawing, h1, h2]
  · intro s
    simp [clearCanvas]
  · intro s ro pos now
    cases ro <;> simp [startDrawing]
  · intro s ro pos
    rcases s with ⟨d, t, c, w, P, U, R, cp⟩
    cases d <;> cases cp <;> cases ro <;> simp [draw]
  · intro s t
    simp [setCurrentTool]
  · intro s c
    simp [setStrokeColor]
  · intro s w
    simp [setStrokeWidth]
  · intro s h
    simp [stopDrawing, h]

/-- C3 witness: a commit from a state whose `redoStack` is nonempty
leaves an empty `redoStack`. -/
theorem C3_witness :
    sActive.isDrawing = true ∧ sActive.currentPath = some pA ∧
      (stopDrawing sActive).redoStack = [] :=
  ⟨rfl, rfl, C3_redo_invalidation.1 sActive pA rfl rfl⟩

/-- C4: from any state whose `committed` (`paths`) holds exactly 3 paths,
`clearCanvas` empties `paths`, appends exactly the prior 3-path snapshot
to `undoStack`, and empties `redoStack`; one `undo` immediately afterward
restores the 3 paths. -/
theorem C4_clear_semantics :
    ∀ s : SurfaceState, s.paths.length = 3 →
      (clearCanvas s).paths = [] ∧
      (clearCanvas s).undoStack = s.undoStack ++ [s.paths] ∧
      (clearCanvas s).redoStack = [] ∧
      (undo (clearCanvas s)).paths = s.paths := by
  intro s _
  refine ⟨rfl, rfl, rfl, ?_⟩
  simp [undo, clearCanvas, List.getLast?_concat]

/-- C4 witness: the clear-then-undo round trip on a concrete 3-path
state. -/
theorem C4_witness :
    s3c.paths.length = 3 ∧
      ((clearCanvas s3c).paths = [] ∧
      (clearCanvas s3c).undoStack = s3c.undoStack ++ [s3c.paths] ∧
      (clearCanvas s3c).redoStack = [] ∧
      (undo (clearCanvas s3c)).paths = s3c.paths) :=
  ⟨by decide, C4_clear_semantics s3c (by decide)⟩

/-- C5: on an empty `undoStack`, `undo` is the identity on the whole
surface state; symmetrically for `redo` on an empty `redoStack`.  Both
are total Lean functions, so neither signals an error. -/
theorem C5_noop_on_empty_stacks :
    ∀ s : SurfaceState,
      (s.undoStack = [] → undo s = s) ∧ (s.redoStack = [] → redo s = s) := by
  intro s
  constructor
  · intro h
    simp [undo, h]
  · intro h
    simp [redo, h]

/-- C5 witness: both no-ops at the initial state. -/
theorem C5_witness :
    initState.undoStack = [] ∧ undo initState = initState ∧
      initState.redoStack = [] ∧ redo initState = initState :=
  ⟨rfl, (C5_noop_on_empty_stacks initState).1 rfl, rfl,
    (C5_noop_on_empty_stacks initState).2 rfl⟩

/-- C9: calling `startDrawing` (not read-only) while a gesture is already
active leaves `paths` and both stacks unchanged — the old in-progress
path is discarded, never committed, and no snapshot is pushed — and
replaces `currentPath` with a fresh single-point path built from the
current tool, color and width. -/
theorem C9_begin_discards_active :
    ∀ (s : SurfaceState) (old : DrawingPath) (pos : Point) (now : Nat),
      s.currentPath = some old →
        (startDrawing false pos now s).paths = s.paths ∧
        (startDrawing false pos now s).undoStack = s.undoStack ∧
        (startDrawing false pos now s).redoStack = s.redoStack ∧
        (startDrawing false pos now s).currentPath = some
          { id := toString now, tool := s.currentTool, points := [pos],
            color := s.strokeColor, strokeWidth := s.strokeWidth,
            timestamp := now } := by
  intro s old pos now _
  simp [startDrawing]

/-- C9 witness: restarting over the active gesture of `sActive`. -/
theorem C9_witness :
    sActive.currentPath = some pA ∧
      ((startDrawing false ⟨4, 4⟩ 9 sActive).paths = sActive.paths ∧
      (startDrawing false ⟨4, 4⟩ 9 sActive).undoStack = sActive.undoStack ∧
      (startDrawing false ⟨4, 4⟩ 9 sActive).redoStack = sActive.redoStack ∧
      (startDrawing false ⟨4, 4⟩ 9 sActive).currentPath = some
        { id := toString 9, tool := sActive.currentTool, points := [⟨4, 4⟩],
          color := sActive.strokeColor, strokeWidth := sActive.strokeWidth,
          timestamp := 9 }) :=
  ⟨rfl, C9_begin_discards_active sActive pA ⟨4, 4⟩ 9 rfl⟩

/-- C6: the canvas wires the very same `stopDrawing` handler to
pointer-leave as to pointer-up, so pointer-leave is handled identically to
`end()` on every state; in particular a gesture begun at `p1` and extended
to `p2` and `p3` then ended by pointer-leave commits exactly one new path
with those 3 points — the same resulting state as calling `stopDrawing`
directly. -/
theorem C6_pointer_leave_commits :
    (∀ s, onMouseLeave s = stopDrawing s) ∧
    (∀ (s : SurfaceState) (p1 p2 p3 : Point) (now : Nat),
      onMouseLeave (draw false p3 (draw false p2 (startDrawing false p1 now s)))
        = stopDrawing
            (draw false p3 (draw false p2 (startDrawing false p1 now s))) ∧
      (onMouseLeave
          (draw false p3 (draw false p2 (startDrawing false p1 now s)))).paths
        = s.paths ++
          [{ id := toString now, tool := s.currentTool,
             points := [p1, p2, p3], color := s.strokeColor,
             strokeWidth := s.strokeWidth, timestamp := now }]) := by
  refine ⟨fun s => rfl, ?_⟩
  intro s p1 p2 p3 now
  refine ⟨rfl, ?_⟩
  simp [onMouseLeave, startDrawing, draw, stopDrawing]

/-- A degenerate gesture state: one collected point, gesture active. -/
def sClick : SurfaceState :=
  startDrawing false ⟨6, 6⟩ 11 initState

/-- C8: a gesture holding at most one point is still committed whole by
`stopDrawing` — it enters `paths`, pushes an undo snapshot and counts
toward the path count — while `drawPath` paints nothing for any path with
fewer than 2 points. -/
theorem C8_degenerate_commit :
    (∀ (s : SurfaceState) (cp : DrawingPath),
      s.isDrawing = true → s.currentPath = some cp → cp.points.length ≤ 1 →
        (stopDrawing s).paths = s.paths ++ [cp] ∧
        (stopDrawing s).undoStack = s.undoStack ++ [s.paths] ∧
        (stopDrawing s).paths.length = s.paths.length + 1) ∧
    (∀ p : DrawingPath, p.points.length < 2 → drawPath p = []) := by
  constructor
  · intro s cp h1 h2 _
    simp [stopDrawing, h1, h2]
  · intro p hp
    rcases p with ⟨i, t, pts, c, w, ts⟩
    match pts, hp with
    | [], _ => rfl
    | [q], _ => rfl

/-- C8 witness: committing a one-point click gesture. -/
theorem C8_witness :
    sClick.isDrawing = true ∧
      sClick.currentPath = some
        { id := "11", tool := Tool.pen, points := [⟨6, 6⟩],
          color := "#000000", strokeWidth := 2, timestamp := 11 } ∧
      (stopDrawing sClick).paths = sClick.paths ++
        [{ id := "11", tool := Tool.pen, points := [⟨6, 6⟩],
           color := "#000000", strokeWidth := 2, timestamp := 11 }] ∧
      pC.points.length < 2 ∧ drawPath pC = [] :=
  ⟨rfl, by decide,
    (C8_degenerate_commit.1 sClick
      { id := "11", tool := Tool.pen, points := [⟨6, 6⟩],
        color := "#000000", strokeWidth := 2, timestamp := 11 }
      rfl (by decide) (by decide)).1,
    by decide, C8_degenerate_commit.2 pC (by decide)⟩

/-- A rectangle path with an intermediate point. -/
def rect3 : DrawingPath :=
  { id := "r3", tool := Tool.rectangle, points := [⟨0, 0⟩, ⟨5, 5⟩, ⟨10, 0⟩],
    color := "#000000", strokeWidth := 2, timestamp := 4 }

/-- Path `rect3` reduced to its first and last point. -/
def rect2 : DrawingPath :=
  { rect3 with points := [⟨0, 0⟩, ⟨10, 0⟩] }

/-- A circle path with an intermediate point. -/
def circ3 : DrawingPath :=
  { id := "c3", tool := Tool.circle, points := [⟨0, 0⟩, ⟨9, 9⟩, ⟨3, 4⟩],
    color := "#000000", strokeWidth := 2, timestamp := 5 }

/-- Path `circ3` reduced to its first and last point. -/
def circ2 : DrawingPath :=
  { circ3 with points := [⟨0, 0⟩, ⟨3, 4⟩] }

/-- C2: the claim fails for the rectangle tool.  `drawPath` on a
rectangle keeps the polyline through all collected points as the
context's current path (the source's `clearRect(0,0,0,0)` comment says
"Reset path" but resets nothing, and no `beginPath()` follows), so the
final `stroke()` paints that polyline and an intermediate point changes
the output; for the circle tool the `beginPath()` before `arc` does reset
the path, so there intermediate points really are ignored. -/
theorem C2_rectangle_intermediate_points_not_ignored :
    drawPath rect3 ≠ drawPath rect2 ∧ drawPath circ3 = drawPath circ2 := by
  decide

/-- The rectangle path of the geometry example. -/
def c7rect : DrawingPath :=
  { id := "r", tool := Tool.rectangle, points := [⟨10, 10⟩, ⟨50, 40⟩],
    color := "#000000", strokeWidth := 2, timestamp := 6 }

/-- The circle path of the geometry example. -/
def c7circ : DrawingPath :=
  { id := "c", tool := Tool.circle, points := [⟨0, 0⟩, ⟨3, 4⟩],
    color := "#000000", strokeWidth := 2, timestamp := 7 }

/-- C7: a `rectangle` path with points (10,10) and (50,40) paints a
stroked rectangle with corner (10,10), width 40 and height 30; a `circle`
path with points (0,0) and (3,4) paints exactly one stroked circle
centered at (0,0) whose squared radius is 3² + 4² = 25, i.e. whose radius
`Math.sqrt(dx² + dy²)` is 5. -/
theorem C7_rect_circle_geometry :
    Primitive.strokeRect 10 10 40 30 "#000000" 2 CompositeOp.sourceOver ∈
      drawPath c7rect ∧
    drawPath c7circ
      = [Primitive.strokeCircle 0 0 25 "#000000" 2 CompositeOp.sourceOver] ∧
    Real.sqrt 25 = 5 := by
  refine ⟨by decide, by decide, ?_⟩
  rw [show (25 : ℝ) = 5 ^ 2 by norm_num]
  exact Real.sqrt_sq (by norm_num)

/-! Undo/redo algebra. -/

/-- When `undoStack` is nonempty, `redo` after `undo` restores the whole
surface state. -/
theorem redo_undo_of_undoStack_ne_nil (s : SurfaceState)
    (h : s.undoStack ≠ []) : redo (undo s) = s := by
  obtain ⟨u, v, huv⟩ := s.undoStack.eq_nil_or_concat.resolve_left h
  rcases s with ⟨d, t, c, w, P, U, R, cp⟩
  simp only at huv
  subst huv
  simp [undo, redo, List.getLast?_concat, List.dropLast_concat]

/-- When `redoStack` is nonempty, `undo` after `redo` restores the whole
surface state. -/
theorem undo_redo_of_redoStack_ne_nil (s : SurfaceState)
    (h : s.redoStack ≠ []) : undo (redo s) = s := by
  rcases s with ⟨d, t, c, w, P, U, R, cp⟩
  cases R with
  | nil => exact absurd rfl h
  | cons next rest =>
      simp [undo, redo, List.getLast?_concat, List.dropLast_concat]

/-- Each `undo` shortens `undoStack` by one (saturating at zero). -/
theorem undo_undoStack_length (s : SurfaceState) :
    (undo s).undoStack.length = s.undoStack.length - 1 := by
  rcases s.undoStack.eq_nil_or_concat with hnil | ⟨u, v, huv⟩
  · simp [undo, hnil]
  · simp [undo, huv, List.getLast?_concat, List.dropLast_concat]

/-- Iterated `undo` shortens `undoStack` by the iteration count. -/
theorem iterate_undo_undoStack_length (n : Nat) (s : SurfaceState) :
    (undo^[n] s).undoStack.length = s.undoStack.length - n := by
  induction n generalizing s with
  | zero => simp
  | succ n ih =>
      rw [Function.iterate_succ_apply, ih (undo s), undo_undoStack_length]
      omega

/-- As long as `undoStack` holds at least `n` snapshots, `n` redos after
`n` undos restore the whole surface state. -/
theorem iterate_redo_iterate_undo (n : Nat) (s : SurfaceState)
    (h : n ≤ s.undoStack.length) : redo^[n] (undo^[n] s) = s := by
  induction n with
  | zero => rfl
  | succ n ih =>
      have hne : (undo^[n] s).undoStack ≠ [] := by
        have hlen := iterate_undo_undoStack_length n s
        intro hnil
        rw [hnil] at hlen
        simp at hlen
        omega
      rw [Function.iterate_succ_apply' undo n s,
        Function.iterate_succ_apply redo n,
        redo_undo_of_undoStack_ne_nil (undo^[n] s) hne,
        ih (Nat.le_of_succ_le h)]

/-- One complete pointer gesture: a pointer-down position, the collected
pointer-move positions, and the clock value at pointer-down. -/
structure Gesture where
  start : Point
  moves : List Point
  now : Nat

/-- Replay a list of pointer-move events. -/
def applyMoves (ms : List Point) (s : SurfaceState) : SurfaceState :=
  ms.foldl (fun t q => draw false q t) s

/-- One commit: pointer-down, the moves, then `stopDrawing` (`end()`). -/
def gestureCommit (s : SurfaceState) (g : Gesture) : SurfaceState :=
  stopDrawing (applyMoves g.moves (startDrawing false g.start g.now s))

/-- A sequence of commits, left to right. -/
def commitList (s : SurfaceState) (gs : List Gesture) : SurfaceState :=
  gs.foldl gestureCommit s

/-- Replaying moves over an active gesture keeps it active and touches
neither `undoStack` nor the drawing flag. -/
theorem applyMoves_active (ms : List Point) :
    ∀ s : SurfaceState, s.isDrawing = true → s.currentPath.isSome →
      (applyMoves ms s).isDrawing = true ∧
      (applyMoves ms s).currentPath.isSome ∧
      (applyMoves ms s).undoStack = s.undoStack := by
  induction ms with
  | nil => intro s h1 h2; exact ⟨h1, h2, rfl⟩
  | cons m ms ih =>
      intro s h1 h2
      rcases hcp : s.currentPath with _ | cp
      · rw [hcp] at h2; simp at h2
      · have hstep : draw false m s =
            { s with
              currentPath := some ({ cp with points := cp.points ++ [m] }) } := by
          simp [draw, h1, hcp]
        have := ih (draw false m s) (by rw [hstep]; exact h1)
          (by rw [hstep]; rfl)
        refine ⟨this.1, this.2.1, ?_⟩
        rw [show applyMoves (m :: ms) s = applyMoves ms (draw false m s)
          from rfl, this.2.2, hstep]

/-- Each commit pushes exactly one snapshot onto `undoStack`. -/
theorem gestureCommit_undoStack_length (s : SurfaceState) (g : Gesture) :
    (gestureCommit s g).undoStack.length = s.undoStack.length + 1 := by
  have hstart : (startDrawing false g.start g.now s).isDrawing = true ∧
      (startDrawing false g.start g.now s).currentPath.isSome ∧
      (startDrawing false g.start g.now s).undoStack = s.undoStack := by
    simp [startDrawing]
  obtain ⟨h1, h2, h3⟩ :=
    applyMoves_active g.moves _ hstart.1 hstart.2.1
  rcases hcp : (applyMoves g.moves
      (startDrawing false g.start g.now s)).currentPath with _ | cp
  · rw [hcp] at h2; simp at h2
  · rw [hstart.2.2] at h3
    simp [gestureCommit, stopDrawing, h1, hcp, h3]

/-- A run of commits grows `undoStack` by the number of commits. -/
theorem commitList_undoStack_length (gs : List Gesture) :
    ∀ s : SurfaceState,
      (commitList s gs).undoStack.length = s.undoStack.length + gs.length := by
  induction gs with
  | nil => intro s; rfl
  | cons g gs ih =>
      intro s
      rw [show commitList s (g :: gs) = commitList (gestureCommit s g) gs
        from rfl, ih, gestureCommit_undoStack_length, List.length_cons]
      omega

/-- A committed singleton history: one pen stroke from the initial
state.  Its `undoStack` is `[[]]` and its `redoStack` is `[]`. -/
def s1c : SurfaceState :=
  stopDrawing (startDrawing false ⟨1, 2⟩ 0 initState)

/-- The state after undoing that single commit: `undoStack` is empty and
`redoStack` is nonempty. -/
def s1u : SurfaceState :=
  undo s1c

/-- C1 counterexample: `redo()` followed by `undo()` does not in general
restore the prior committed state.  `s1c` is reachable (one `begin`/`end`
gesture from the initial state); its `redoStack` is empty, so `redo` is a
no-op, and the subsequent `undo` pops the one snapshot — `committed`
changes from one path to none. -/
theorem C1_counterexample : (undo (redo s1c)).paths ≠ s1c.paths := by
  decide

/-- C1 as amended: for any start state and any sequence of N commits,
N undos followed by N redos restore the entire surface state (so in
particular `committed` is sequence-equal, same ids in the same order) to
its value after the Nth commit; and a single undo-then-redo (resp.
redo-then-undo) restores the exact prior state provided `undoStack`
(resp. `redoStack`) is nonempty — when that stack is empty the first call
is a no-op and the pair need not restore the state. -/
theorem C1_amended_undo_redo_reversible :
    (∀ (s0 : SurfaceState) (gs : List Gesture),
      redo^[gs.length] (undo^[gs.length] (commitList s0 gs))
        = commitList s0 gs) ∧
    (∀ s : SurfaceState, s.undoStack ≠ [] → redo (undo s) = s) ∧
    (∀ s : SurfaceState, s.redoStack ≠ [] → undo (redo s) = s) := by
  refine ⟨?_, redo_undo_of_undoStack_ne_nil, undo_redo_of_redoStack_ne_nil⟩
  intro s0 gs
  apply iterate_redo_iterate_undo
  rw [commitList_undoStack_length]
  omega

/-- C1 witness: one concrete commit, then undo/redo round trips in both
orders on the states where the respective stack is nonempty. -/
theorem C1_witness :
    (redo^[1] (undo^[1] (commitList initState
        [{ start := ⟨1, 2⟩, moves := [⟨3, 4⟩], now := 0 }]))
      = commitList initState
        [{ start := ⟨1, 2⟩, moves := [⟨3, 4⟩], now := 0 }]) ∧
    (s1c.undoStack ≠ [] ∧ redo (undo s1c) = s1c) ∧
    (s1u.redoStack ≠ [] ∧ undo (redo s1u) = s1u) :=
  ⟨C1_amended_undo_redo_reversible.1 initState
      [{ start := ⟨1, 2⟩, moves := [⟨3, 4⟩], now := 0 }],
    ⟨by decide, C1_amended_undo_redo_reversible.2.1 s1c (by decide)⟩,
    ⟨by decide, C1_amended_undo_redo_reversible.2.2 s1u (by decide)⟩⟩

/-! Reachability and the nonempty-points invariant. -/

/-- Every path in the list has a nonempty `points` sequence. -/
def PathsOk (L : List DrawingPath) : Prop := ∀ p ∈ L, p.points ≠ []

/-- The inductive invariant: every committed path, every path inside any
history snapshot, and the in-progress path (when present) have nonempty
`points`. -/
def Inv (s : SurfaceState) : Prop :=
  PathsOk s.paths ∧ (∀ snap ∈ s.undoStack, PathsOk snap) ∧
    (∀ snap ∈ s.redoStack, PathsOk snap) ∧
    (∀ cp, s.currentPath = some cp → cp.points ≠ [])

/-- The states the widget can reach from mount through its handlers. -/
inductive Reachable : SurfaceState → Prop where
  | mount : Reachable initState
  | down (ro : Bool) (pos : Point) (now : Nat) {s : SurfaceState} :
      Reachable s → Reachable (startDrawing ro pos now s)
  | move (ro : Bool) (pos : Point) {s : SurfaceState} :
      Reachable s → Reachable (draw ro pos s)
  | up {s : SurfaceState} : Reachable s → Reachable (stopDrawing s)
  | undoBtn {s : SurfaceState} : Reachable s → Reachable (undo s)
  | redoBtn {s : SurfaceState} : Reachable s → Reachable (redo s)
  | clearBtn {s : SurfaceState} : Reachable s → Reachable (clearCanvas s)
  | toolBtn (t : Tool) {s : SurfaceState} :
      Reachable s → Reachable (setCurrentTool t s)
  | colorBtn (c : String) {s : SurfaceState} :
      Reachable s → Reachable (setStrokeColor c s)
  | widthBtn (w : Nat) {s : SurfaceState} :
      Reachable s → Reachable (setStrokeWidth w s)

theorem inv_initState : Inv initState := by
  refine ⟨?_, ?_, ?_, ?_⟩ <;> simp [initState, PathsOk]

theorem inv_startDrawing {s : SurfaceState} (ro : Bool) (pos : Point)
    (now : Nat) (h : Inv s) : Inv (startDrawing ro pos now s) := by
  obtain ⟨h1, h2, h3, h4⟩ := h
  cases ro with
  | true => exact ⟨h1, h2, h3, h4⟩
  | false =>
      refine ⟨h1, h2, h3, ?_⟩
      intro cp hcp
      simp [startDrawing] at hcp
      simp [← hcp]

theorem inv_draw {s : SurfaceState} (ro : Bool) (pos : Point) (h : Inv s) :
    Inv (draw ro pos s) := by
  obtain ⟨h1, h2, h3, h4⟩ := h
  rcases s with ⟨d, t, c, w, P, U, R, cq⟩
  cases d <;> cases cq <;> cases ro <;>
    simp_all [draw, Inv, PathsOk] <;> exact ⟨h2, h3⟩

theorem inv_stopDrawing {s : SurfaceState} (h : Inv s) :
    Inv (stopDrawing s) := by
  obtain ⟨h1, h2, h3, h4⟩ := h
  cases hd : s.isDrawing with
  | false =>
      rw [show stopDrawing s = s by simp [stopDrawing, hd]]
      exact ⟨h1, h2, h3, h4⟩
  | true =>
      cases hcp : s.currentPath with
      | none =>
          rw [show stopDrawing s = s by simp [stopDrawing, hd, hcp]]
          exact ⟨h1, h2, h3, h4⟩
      | some cp =>
          have hs : stopDrawing s =
              { s with
                isDrawing := false
                undoStack := s.undoStack ++ [s.paths]
                redoStack := []
                paths := s.paths ++ [cp]
                currentPath := none } := by
            simp [stopDrawing, hd, hcp]
          rw [hs]
          refine ⟨?_, ?_, ?_, ?_⟩
          · intro p hp
            rcases List.mem_append.mp hp with hp | hp
            · exact h1 p hp
            · rw [List.mem_singleton.mp hp]
              exact h4 cp hcp
          · intro snap hsnap
            rcases List.mem_append.mp hsnap with hsnap | hsnap
            · exact h2 snap hsnap
            · rw [List.mem_singleton.mp hsnap]
              exact h1
          · intro snap hsnap
            simp at hsnap
          · intro q hq
            simp at hq

theorem inv_undo {s : SurfaceState} (h : Inv s) : Inv (undo s) := by
  obtain ⟨h1, h2, h3, h4⟩ := h
  rcases s.undoStack.eq_nil_or_concat with hnil | ⟨u, v, huv⟩
  · rw [show undo s = s by simp [undo, hnil]]
    exact ⟨h1, h2, h3, h4⟩
  · rw [List.concat_eq_append] at huv
    have hs : undo s =
        { s with
          redoStack := s.paths :: s.redoStack
          paths := v
          undoStack := u } := by
      simp [undo, huv, List.getLast?_concat, List.dropLast_concat]
    rw [hs]
    refine ⟨?_, ?_, ?_, h4⟩
    · exact h2 v (by simp [huv])
    · intro snap hsnap
      exact h2 snap (by simp [huv, hsnap])
    · intro snap hsnap
      rcases List.mem_cons.mp hsnap with hsnap | hsnap
      · rw [hsnap]; exact h1
      · exact h3 snap hsnap

theorem inv_redo {s : SurfaceState} (h : Inv s) : Inv (redo s) := by
  obtain ⟨h1, h2, h3, h4⟩ := h
  cases hr : s.redoStack with
  | nil =>
      rw [show redo s = s by simp [redo, hr]]
      exact ⟨h1, h2, h3, h4⟩
  | cons next rest =>
      have hs : redo s =
          { s with
            undoStack := s.undoStack ++ [s.paths]
            paths := next
            redoStack := rest } := by
        simp [redo, hr]
      rw [hs]
      refine ⟨?_, ?_, ?_, h4⟩
      · exact h3 next (by simp [hr])
      · intro snap hsnap
        rcases List.mem_append.mp hsnap with hsnap | hsnap
        · exact h2 snap hsnap
        · rw [List.mem_singleton.mp hsnap]
          exact h1
      · intro snap hsnap
        exact h3 snap (by simp [hr, hsnap])

theorem inv_clearCanvas {s : SurfaceState} (h : Inv s) :
    Inv (clearCanvas s) := by
  obtain ⟨h1, h2, h3, h4⟩ := h
  refine ⟨?_, ?_, ?_, h4⟩
  · intro p hp
    simp [clearCanvas] at hp
  · intro snap hsnap
    rcases List.mem_append.mp hsnap with hsnap | hsnap
    · exact h2 snap hsnap
    · rw [List.mem_singleton.mp hsnap]
      exact h1
  · intro snap hsnap
    simp [clearCanvas] at hsnap

/-- The nonempty-points invariant holds in every reachable state. -/
theorem reachable_inv {s : SurfaceState} (h : Reachable s) : Inv s := by
  induction h with
  | mount => exact inv_initState
  | down ro pos now _ ih => exact inv_startDrawing ro pos now ih
  | move ro pos _ ih => exact inv_draw ro pos ih
  | up _ ih => exact inv_stopDrawing ih
  | undoBtn _ ih => exact inv_undo ih
  | redoBtn _ ih => exact inv_redo ih
  | clearBtn _ ih => exact inv_clearCanvas ih
  | toolBtn t _ ih => exact ih
  | colorBtn c _ ih => exact ih
  | widthBtn w _ ih => exact ih

/-- The head of the in-progress path's points, when a gesture is active:
the observation through which "the first point is the gesture's start
position" is stated. -/
def headOfCurrent (s : SurfaceState) : Option (Option Point) :=
  s.currentPath.map fun q => q.points.head?

/-- C10: in every reachable state every committed path has at least one
point; `startDrawing` (not read-only) creates the in-progress path with
exactly the one start position; `draw` preserves the first point of the
in-progress path and never touches `paths`; `startDrawing` never touches
`paths`; and `stopDrawing` with an active gesture appends exactly the
in-progress path — so a committed path's first point is its gesture's
start position and an empty `points` array is unreachable. -/
theorem C10_committed_paths_nonempty :
    (∀ s : SurfaceState, Reachable s → ∀ p ∈ s.paths, 1 ≤ p.points.length) ∧
    (∀ (s : SurfaceState) (pos : Point) (now : Nat),
      (startDrawing false pos now s).currentPath = some
        { id := toString now, tool := s.currentTool, points := [pos],
          color := s.strokeColor, strokeWidth := s.strokeWidth,
          timestamp := now }) ∧
    (∀ (s : SurfaceState) (ro : Bool) (pos : Point) (cp : DrawingPath),
      s.currentPath = some cp → cp.points ≠ [] →
        headOfCurrent (draw ro pos s) = some cp.points.head?) ∧
    (∀ (s : SurfaceState) (ro : Bool) (pos : Point) (now : Nat),
      (startDrawing ro pos now s).paths = s.paths) ∧
    (∀ (s : SurfaceState) (ro : Bool) (pos : Point),
      (draw ro pos s).paths = s.paths) ∧
    (∀ (s : SurfaceState) (cp : DrawingPath),
      s.isDrawing = true → s.currentPath = some cp →
        (stopDrawing s).paths = s.paths ++ [cp]) := by
  refine ⟨?_, ?_, ?_, ?_, ?_, ?_⟩
  · intro s hr p hp
    exact List.length_pos.mpr ((reachable_inv hr).1 p hp)
  · intro s pos now
    simp [startDrawing]
  · intro s ro pos cp hcp hne
    rcases hpts : cp.points with _ | ⟨a, l⟩
    · exact absurd hpts hne
    · rcases s with ⟨d, t, c, w, P, U, R, cq⟩
      simp only at hcp
      subst hcp
      cases d <;> cases ro <;> simp [draw, headOfCurrent, hpts]
  · intro s ro pos now
    cases ro <;> simp [startDrawing]
  · intro s ro pos
    rcases s with ⟨d, t, c, w, P, U, R, cq⟩
    cases d <;> cases cq <;> cases ro <;> simp [draw]
  · intro s cp h1 h2
    simp [stopDrawing, h1, h2]

/-- The single path committed in `s1c`. -/
def p1c : DrawingPath :=
  { id := "0", tool := Tool.pen, points := [⟨1, 2⟩],
    color := "#000000", strokeWidth := 2, timestamp := 0 }

/-- State `s1c` really is reachable: mount, pointer-down, pointer-up. -/
theorem reachable_s1c : Reachable s1c :=
  Reachable.up (Reachable.down false ⟨1, 2⟩ 0 Reachable.mount)

/-- C10 witness: the invariant at the concrete reachable state `s1c`,
the head-preservation of `draw` and the commit shape of `stopDrawing`
at the concrete active state `sActive`. -/
theorem C10_witness :
    (Reachable s1c ∧ p1c ∈ s1c.paths ∧ 1 ≤ p1c.points.length) ∧
    (sActive.currentPath = some pA ∧ pA.points ≠ [] ∧
      headOfCurrent (draw false ⟨9, 9⟩ sActive) = some pA.points.head?) ∧
    (sActive.isDrawing = true ∧
      (stopDrawing sActive).paths = sActive.paths ++ [pA]) :=
  ⟨⟨reachable_s1c, by decide,
      C10_committed_paths_nonempty.1 s1c reachable_s1c p1c (by decide)⟩,
    ⟨rfl, by decide,
      C10_committed_paths_nonempty.2.2.1 sActive false ⟨9, 9⟩ pA rfl
        (by decide)⟩,
    ⟨rfl, C10_committed_paths_nonempty.2.2.2.2.2 sActive pA rfl rfl⟩⟩

end Whiteboard
